import Mathlib

set_option maxRecDepth 400000

/-!
Verification of the markup-transformation core of
`src/VitalArticlesBot/update_vital_article_counts.py`.

The Python code is shallowly embedded: strings are Lean `String`s (with all
interesting operations implemented over `List Char` so that everything is
kernel-executable), `mwparserfromhell` template/parameter objects become the
`Param`/`Tmpl` structures below, talk pages become `TalkPage` (the template
list produced by `filter_templates` plus the raw page text), and the node
stream that `wikicode.filter()` yields for a single line becomes `List Node`.
Python exceptions that the bot does not catch (IndexError, AttributeError,
ValueError escaping a `try`) are modelled as `Except.error ()`.
-/

/-! ### Python-style character and string helpers -/

/-- Python's `\s` / `str.strip()` whitespace class (ASCII): space, tab,
newline, carriage return, vertical tab, form feed. -/
def wsChar (c : Char) : Bool :=
  c == ' ' || c == '\t' || c == '\n' || c == '\r' || c == '\u000b' || c == '\u000c'

/-- `str.lower()` on the character list (ASCII data throughout). -/
def lowerChars (cs : List Char) : List Char := cs.map Char.toLower

/-- Does `cs` start with `pat`? -/
def beginsWith : List Char → List Char → Bool
  | [], _ => true
  | _ :: _, [] => false
  | p :: ps, c :: cs => p == c && beginsWith ps cs

/-- Python's `pat in s` substring test. -/
def containsSub (pat : List Char) : List Char → Bool
  | [] => beginsWith pat []
  | c :: cs => beginsWith pat (c :: cs) || containsSub pat cs

/-- Python's `s.count(pat)` for nonempty `pat` (as at every call site):
non-overlapping occurrences, scanning left to right. The `fuel` argument
(instantiated with the string length, which strictly bounds the number of
steps) only makes the recursion structural so the kernel can evaluate it. -/
def countSubAux (pat : List Char) : Nat → List Char → Nat
  | 0, _ => 0
  | _, [] => 0
  | fuel + 1, c :: cs =>
    if beginsWith pat (c :: cs) then
      1 + countSubAux pat fuel (cs.drop (pat.length - 1))
    else
      countSubAux pat fuel cs

def countSub (pat cs : List Char) : Nat := countSubAux pat cs.length cs

/-- Python's `s.replace(pat, rep)` for nonempty `pat`: replace all
non-overlapping occurrences, left to right (same fuel device). -/
def replaceAllSubAux (pat rep : List Char) : Nat → List Char → List Char
  | 0, cs => cs
  | _, [] => []
  | fuel + 1, c :: cs =>
    if beginsWith pat (c :: cs) then
      rep ++ replaceAllSubAux pat rep fuel (cs.drop (pat.length - 1))
    else
      c :: replaceAllSubAux pat rep fuel cs

def replaceAllSub (pat rep cs : List Char) : List Char := replaceAllSubAux pat rep cs.length cs

/-- Everything before the first occurrence of `stop`: `s.split(stop)[0]` for a
one-character separator. -/
def takeUntil (stop : Char) (cs : List Char) : List Char :=
  cs.takeWhile (fun c => c != stop)

/-- Everything before the first occurrence of the (nonempty) separator `pat`:
`s.split(pat)[0]`. -/
def takeBefore (pat : List Char) : List Char → List Char
  | [] => []
  | c :: cs => if beginsWith pat (c :: cs) then [] else c :: takeBefore pat cs

/-- `s.split(sep)[1]` for a one-character separator: `none` models Python's
IndexError when no separator occurs. -/
def splitIdx1 (sep : Char) (cs : List Char) : Option (List Char) :=
  match cs.dropWhile (fun c => c != sep) with
  | [] => none
  | _ :: rest => some (takeUntil sep rest)

/-- `s.split(sep)[-1]` for a one-character separator: the suffix after the
last separator (the whole string when the separator is absent). -/
def lastField (sep : Char) (cs : List Char) : List Char :=
  (cs.reverse.takeWhile (fun c => c != sep)).reverse

/-- Python's `s.strip(chars)`: drop characters of `set` from both ends. -/
def stripSet (set : List Char) (cs : List Char) : List Char :=
  ((cs.dropWhile (fun c => set.contains c)).reverse.dropWhile (fun c => set.contains c)).reverse

/-- Python's `s.strip()` (whitespace). -/
def trimChars (cs : List Char) : List Char :=
  ((cs.dropWhile wsChar).reverse.dropWhile wsChar).reverse

def strTrim (s : String) : String := String.mk (trimChars s.data)

def strLower (s : String) : String := String.mk (lowerChars s.data)

/-- Python's `pat in s` on `String`s. -/
def subStr (pat s : String) : Bool := containsSub pat.data s.data

/-- Python's `int(s)` restricted to the success case: all-digit, nonempty.
`int` raises ValueError on anything else the `[0-9,]+` captures can produce
(a comma), which the bot does not catch. -/
def pyIntNat (cs : List Char) : Option Nat :=
  if cs.isEmpty || cs.any (fun c => !c.isDigit) then none
  else some (cs.foldl (fun n c => n * 10 + (c.toNat - 48)) 0)

/-! ### The `mwparserfromhell` data model used by the bot -/

/-- A template parameter. `showkey` is false for positional parameters, whose
serialization omits the `key=` part (mwparserfromhell `Parameter.__str__`). -/
structure Param where
  key : String
  value : String
  showkey : Bool
deriving DecidableEq, Repr

/-- `str(parameter)`. -/
def paramStr (p : Param) : String :=
  if p.showkey then p.key ++ "=" ++ p.value else p.value

/-- A template node: name plus ordered parameters. -/
structure Tmpl where
  name : String
  params : List Param
deriving DecidableEq, Repr

/-- `str(template)`. -/
def tmplStr (t : Tmpl) : String :=
  "\x7b\x7b" ++ t.name ++ String.join (t.params.map (fun p => "|" ++ paramStr p)) ++ "\x7d\x7d"

/-- `Template.get(name)`: the last parameter whose stripped name matches
(mwparserfromhell iterates `reversed(self.params)`); `none` models the
ValueError when absent. -/
def tmplGet (ps : List Param) (k : String) : Option Param :=
  ps.reverse.find? (fun p => strTrim p.key == strTrim k)

/-- Helper for `tmplSet`: update the first match of a reversed parameter
list. -/
def tmplSetRev (k v : String) : List Param → List Param
  | [] => []
  | p :: rest =>
    if strTrim p.key == strTrim k then { p with value := v } :: rest
    else p :: tmplSetRev k v rest

/-- `Template.add(name, value)` in the case exercised by the bot (the
parameter already exists, having been fetched with `get` just before): the
last parameter with that name gets the new value. -/
def tmplSet (ps : List Param) (k v : String) : List Param :=
  (tmplSetRev k v ps.reverse).reverse

/-- A parsed talk page as the resolver consumes it: the document-order
template list `filter_templates()` yields, plus the raw page text (used for
the `"WikiProject Disambiguation" in talk_page.text` test). -/
structure TalkPage where
  templates : List Tmpl
  text : String
deriving DecidableEq, Repr

/-! ### Assessment resolver (`get_vital_article_quality`, lines 130-178) -/

def assessment_order : List String :=
  ["fa", "fl", "a", "ga", "bplus", "b", "c", "start", "stub", "dab", "list", "unassessed"]

def no_replace_list : List String := ["dga", "ffa", "ffac"]

def dga_templates : List String := ["dga", "delistedga"]

def article_history_templates : List String :=
  ["article history", "articlehistory", "articlemilestones", "ah"]

/-- `sanitise_assessment` (line 132): lower-case, cut at the first `<!`
(HTML comment opener), strip whitespace. -/
def sanitise_assessment (s : String) : String :=
  String.mk (trimChars (takeBefore "<!".data (lowerChars s.data)))

/-- Position of `x` in a list (first match; total, callers guard membership). -/
def listIdx : List String → String → Nat
  | [], _ => 0
  | y :: ys, x => if y == x then 0 else listIdx ys x + 1

/-- The sort key of line 177:
`assessment_order.index(x) if x in assessment_order else 255`. -/
def pyRank (x : String) : Nat :=
  if assessment_order.contains x then listIdx assessment_order x else 255

/-- Stable insertion of `x` (which occurred earlier in the input than every
element of the list) into an already-sorted list: `x` goes before any element
of equal key. -/
def insertRanked (key : String → Nat) (x : String) : List String → List String
  | [] => [x]
  | y :: ys => if key x ≤ key y then x :: y :: ys else y :: insertRanked key x ys

/-- Stable ascending sort by `key`. Python's `list.sort(key=...)` is the
(unique) stable ascending sort, so any stable sort is a faithful model. -/
def sortRanked (key : String → Nat) : List String → List String
  | [] => []
  | x :: xs => insertRanked key x (sortRanked key xs)

/-- The first element of minimal key, scanning left to right (ties keep the
earlier element). -/
def firstMinBy (key : String → Nat) : String → List String → String
  | b, [] => b
  | b, y :: ys => firstMinBy key (if key y < key b then y else b) ys

/-- State of the template scan inside `get_vital_article_quality`. -/
structure ScanAcc where
  assessments : List String
  is_dga : Bool
  is_ffa : Bool
deriving DecidableEq, Repr

/-- The `try: assessment = sanitise_assessment(template.get("class")...)`
block (lines 164-169). `tmplGet` returning `none` is the caught ValueError
(skip); a parameter serialization without `=` makes `split("=")[1]` raise an
uncaught IndexError, modelled as `Except.error`. -/
def classCheck (acc : ScanAcc) (t : Tmpl) : Except Unit ScanAcc :=
  match tmplGet t.params "class" with
  | none => .ok acc
  | some p =>
    match splitIdx1 '=' (paramStr p).data with
    | none => .error ()
    | some v =>
      let a := sanitise_assessment (String.mk v)
      if assessment_order.contains a then
        .ok { acc with assessments := acc.assessments ++ [a] }
      else
        .ok acc

/-- One iteration of the `for template in talk_wikicode.filter_templates()`
loop (lines 150-169). A delisted-GA alias sets the flag and then still falls
through to the class check (the Python `if` has no `continue`); an
article-history alias overwrites both flags from `currentstatus` when that
parameter exists and then skips the class check. -/
def qualityStep (acc : ScanAcc) (t : Tmpl) : Except Unit ScanAcc :=
  let nameL := strLower t.name
  if dga_templates.contains nameL then
    classCheck { acc with is_dga := true } t
  else if article_history_templates.contains nameL then
    match tmplGet t.params "currentstatus" with
    | none => .ok acc
    | some p =>
      match splitIdx1 '=' (paramStr p).data with
      | none => .error ()
      | some v =>
        let cur := strTrim (String.mk v)
        .ok { acc with is_dga := strLower cur == "dga", is_ffa := strLower cur == "ffa" }
  else
    classCheck acc t

/-- Lines 171-178: the fallback and candidate-resolution logic after the scan. -/
def resolveClass (acc : ScanAcc) (text : String) : String × Bool × Bool :=
  if acc.assessments.length == 0 then
    if subStr "WikiProject Disambiguation" text then ("dab", false, false)
    else ("unassessed", false, false)
  else
    let sorted :=
      if acc.assessments.length > 1 then sortRanked pyRank acc.assessments
      else acc.assessments
    (sorted.headD "", acc.is_dga, acc.is_ffa)

/-- `get_vital_article_quality` (lines 130-178), taking the already-fetched
and parsed talk page (page I/O and redirect resolution are external
collaborators). -/
def get_vital_article_quality (tp : TalkPage) : Except Unit (String × Bool × Bool) := do
  let acc ← tp.templates.foldlM qualityStep (ScanAcc.mk [] false false)
  .ok (resolveClass acc tp.text)

/-! ### Lemmas: the head of the stable sort is the first-encountered minimum -/

theorem insertRanked_ne_nil (key : String → Nat) (x : String) (l : List String) :
    insertRanked key x l ≠ [] := by
  cases l with
  | nil => simp [insertRanked]
  | cons y ys => simp only [insertRanked]; split <;> simp

theorem sortRanked_cons_ne_nil (key : String → Nat) (x : String) (xs : List String) :
    sortRanked key (x :: xs) ≠ [] := by
  simp only [sortRanked]; exact insertRanked_ne_nil key x (sortRanked key xs)

theorem firstMin_choice (key : String → Nat) :
    ∀ (ys : List String) (x y : String),
      (if key x ≤ key (firstMinBy key y ys) then x else firstMinBy key y ys)
        = firstMinBy key (if key y < key x then y else x) ys := by
  intro ys
  induction ys with
  | nil =>
    intro x y
    simp only [firstMinBy]
    split_ifs <;> first | rfl | (exfalso; omega)
  | cons z zs ih =>
    intro x y
    simp only [firstMinBy]
    rw [ih]
    congr 1
    split_ifs <;> first | rfl | (exfalso; omega)

theorem sortRanked_headD (key : String → Nat) :
    ∀ (l : List String) (x : String),
      (sortRanked key (x :: l)).headD "" = firstMinBy key x l := by
  intro l
  induction l with
  | nil => intro x; rfl
  | cons y ys ih =>
    intro x
    have hne : sortRanked key (y :: ys) ≠ [] := sortRanked_cons_ne_nil key y ys
    obtain ⟨h, t, he⟩ : ∃ h t, sortRanked key (y :: ys) = h :: t := by
      cases hs : sortRanked key (y :: ys) with
      | nil => exact absurd hs hne
      | cons a b => exact ⟨a, b, rfl⟩
    have hh : h = firstMinBy key y ys := by
      have hx := ih y
      rw [he] at hx
      simpa using hx
    show (insertRanked key x (sortRanked key (y :: ys))).headD "" = _
    rw [he]
    have hstep : (insertRanked key x (h :: t)).headD "" = if key x ≤ key h then x else h := by
      simp only [insertRanked]
      split_ifs <;> rfl
    rw [hstep, hh, firstMin_choice]
    rfl

/-- Unfolding helper: once the template scan is known, the resolver is
`resolveClass` of its accumulator. -/
theorem quality_eq_resolve (tp : TalkPage) (acc : ScanAcc)
    (hscan : tp.templates.foldlM qualityStep (ScanAcc.mk [] false false) = .ok acc) :
    get_vital_article_quality tp = .ok (resolveClass acc tp.text) := by
  unfold get_vital_article_quality
  rw [hscan]
  rfl

/-- C1: when the talk-page template scan collects at least two recognized
class candidates, `get_vital_article_quality` returns the candidate of
minimal `pyRank` (i.e. highest in `assessment_order`), ties resolved in
favour of the first-encountered candidate (`firstMinBy`, the head of the
stable ascending sort); a single candidate is returned as is; and the
candidate list `["c", "b", "start"]` resolves to `"b"`. -/
theorem C1_resolver_highest_rank :
    (∀ (tp : TalkPage) (acc : ScanAcc),
        tp.templates.foldlM qualityStep (ScanAcc.mk [] false false) = .ok acc →
        (∀ a b rest, acc.assessments = a :: b :: rest →
            get_vital_article_quality tp
              = .ok (firstMinBy pyRank a (b :: rest), acc.is_dga, acc.is_ffa))
        ∧ (∀ a, acc.assessments = [a] →
            get_vital_article_quality tp = .ok (a, acc.is_dga, acc.is_ffa)))
    ∧ get_vital_article_quality (TalkPage.mk
        [Tmpl.mk "WikiProject A" [Param.mk "class" "C" true],
         Tmpl.mk "WikiProject B" [Param.mk "class" "B" true],
         Tmpl.mk "WikiProject C" [Param.mk "class" "Start" true]] "talk")
      = .ok ("b", false, false) := by
  constructor
  · intro tp acc hscan
    constructor
    · intro a b rest hass
      rw [quality_eq_resolve tp acc hscan]
      have hres : resolveClass acc tp.text
          = ((sortRanked pyRank (a :: b :: rest)).headD "", acc.is_dga, acc.is_ffa) := by
        simp [resolveClass, hass]
      rw [hres, sortRanked_headD]
    · intro a hass
      rw [quality_eq_resolve tp acc hscan]
      simp [resolveClass, hass]
  · rfl

/-- Witness for C1: a talk page carrying a delisted-GA banner plus two class
banners (`stub`, then `a`); the higher-ranked `a` wins. -/
theorem C1_resolver_highest_rank_witness :
    get_vital_article_quality (TalkPage.mk
      [Tmpl.mk "dga" [],
       Tmpl.mk "WikiProject X" [Param.mk "class" "stub" true],
       Tmpl.mk "WikiProject Y" [Param.mk "class" "a" true]] "t")
      = .ok ("a", true, false) := by
  have h := ((C1_resolver_highest_rank.1 (TalkPage.mk
      [Tmpl.mk "dga" [],
       Tmpl.mk "WikiProject X" [Param.mk "class" "stub" true],
       Tmpl.mk "WikiProject Y" [Param.mk "class" "a" true]] "t")
      (ScanAcc.mk ["stub", "a"] true false) (by rfl)).1 "stub" "a" [] rfl)
  have he : firstMinBy pyRank "stub" ["a"] = "a" := by decide
  rw [he] at h
  exact h

/-- C2 counterexample: a talk page whose only template is a delisted-GA
banner. The scan computes `is_dga = true` (first conjunct), yet the
no-candidate fallback returns the flags as `false` (second conjunct) —
the code resets the flags rather than returning the computed values. -/
theorem C2_counterexample :
    (TalkPage.mk [Tmpl.mk "dga" []] "stuff").templates.foldlM qualityStep
        (ScanAcc.mk [] false false) = .ok (ScanAcc.mk [] true false)
    ∧ get_vital_article_quality (TalkPage.mk [Tmpl.mk "dga" []] "stuff")
      = .ok ("unassessed", false, false) := by
  exact ⟨rfl, rfl⟩

/-- C2 (amended): with no candidates collected, the resolver returns `"dab"`
or `"unassessed"` according to the disambiguation marker, and returns both
historical flags as `false` regardless of what the scan computed. -/
theorem C2_no_candidate_fallback (tp : TalkPage) (acc : ScanAcc)
    (hscan : tp.templates.foldlM qualityStep (ScanAcc.mk [] false false) = .ok acc)
    (hempty : acc.assessments = []) :
    get_vital_article_quality tp
      = .ok ((if subStr "WikiProject Disambiguation" tp.text then "dab" else "unassessed"),
             false, false) := by
  rw [quality_eq_resolve tp acc hscan]
  simp only [resolveClass, hempty]
  by_cases h : subStr "WikiProject Disambiguation" tp.text <;> simp [h]

/-- Witness for C2: a bannerless talk page whose text carries the
disambiguation marker resolves to `"dab"` with reset flags. -/
theorem C2_no_candidate_fallback_witness :
    get_vital_article_quality (TalkPage.mk [] "xx WikiProject Disambiguation yy")
      = .ok ("dab", false, false) := by
  have h := C2_no_candidate_fallback (TalkPage.mk [] "xx WikiProject Disambiguation yy")
    (ScanAcc.mk [] false false) rfl rfl
  simpa using h

/-- C3: a template whose lowered name is an article-history alias and whose
`currentstatus` parameter is present overwrites both historical flags —
`is_dga` becomes true iff the status equals `"dga"` (case-insensitively),
`is_ffa` iff `"ffa"` — irrespective of the incoming flag values (an
overwrite, not an OR), while an article-history template without
`currentstatus` leaves the whole accumulator unchanged and is non-fatal. -/
theorem C3_article_history_overwrite (acc : ScanAcc) (t : Tmpl)
    (hname : article_history_templates.contains (strLower t.name) = true) :
    (tmplGet t.params "currentstatus" = none → qualityStep acc t = .ok acc)
    ∧ (∀ p v, tmplGet t.params "currentstatus" = some p →
        splitIdx1 '=' (paramStr p).data = some v →
        qualityStep acc t = .ok (ScanAcc.mk acc.assessments
          (strLower (strTrim (String.mk v)) == "dga")
          (strLower (strTrim (String.mk v)) == "ffa"))) := by
  have hmem : strLower t.name = "article history" ∨ strLower t.name = "articlehistory"
      ∨ strLower t.name = "articlemilestones" ∨ strLower t.name = "ah" := by
    simpa [article_history_templates] using hname
  have hndga : dga_templates.contains (strLower t.name) = false := by
    rcases hmem with h | h | h | h <;> rw [h] <;> decide
  constructor
  · intro hnone
    simp only [qualityStep, hndga, hname, Bool.false_eq_true, if_false, if_true, hnone]
  · intro p v hp hv
    simp only [qualityStep, hndga, hname, Bool.false_eq_true, if_false, if_true, hp, hv]

/-- Witness for C3: an article-history template with `currentstatus=FFA`
flips an accumulator that had `is_dga = true` to `is_dga = false`,
`is_ffa = true` (overwrite, not OR). -/
theorem C3_article_history_overwrite_witness :
    qualityStep (ScanAcc.mk ["b"] true false)
      (Tmpl.mk "Article history" [Param.mk "currentstatus" "FFA" true])
      = .ok (ScanAcc.mk ["b"] false true) := by
  have h := (C3_article_history_overwrite (ScanAcc.mk ["b"] true false)
    (Tmpl.mk "Article history" [Param.mk "currentstatus" "FFA" true]) (by decide)).2
    (Param.mk "currentstatus" "FFA" true) "FFA".data (by decide) (by decide)
  rw [h]
  rfl

/-! ### A faithful backtracking matcher for the two regexes of `treat_page`

The header regex (line 202) is
`(=+)\s*(.+?)\s*[\(:]\s*?([0-9,]+)\s*(?:articles?)?\s*(/\s*[0-9,]+)?\s*(?:articles?| quota)?\)?\s*=+`
and the heading-count regex (line 224) is its suffix from the count group on,
with a mandatory closing parenthesis. Each quantifier is compiled to an
explicit enumeration of candidate consumptions in exactly the order the
Python `re` engine explores them: greedy pieces longest-first, lazy pieces
shortest-first, alternations left to right, full backtracking through the
continuation. -/

/-- Try `f` on the candidates in order; the first success wins. -/
def firstSome : List α → (α → Option β) → Option β
  | [], _ => none
  | x :: xs, f =>
    match f x with
    | some b => some b
    | none => firstSome xs f

/-- Greedy `p*` without capture: drop the longest `p`-prefix first. -/
def reStarG (p : Char → Bool) (cs : List Char) (k : List Char → Option α) : Option α :=
  firstSome ((List.range ((cs.takeWhile p).length + 1)).reverse) fun n => k (cs.drop n)

/-- Lazy `p*?` without capture: drop the shortest `p`-prefix first. -/
def reStarL (p : Char → Bool) (cs : List Char) (k : List Char → Option α) : Option α :=
  firstSome (List.range ((cs.takeWhile p).length + 1)) fun n => k (cs.drop n)

/-- Greedy `p+` with capture: longest nonempty `p`-prefix first. -/
def rePlusG (p : Char → Bool) (cs : List Char) (k : List Char → List Char → Option α) :
    Option α :=
  firstSome ((List.range ((cs.takeWhile p).length)).map fun i => (cs.takeWhile p).length - i)
    fun n => k (cs.take n) (cs.drop n)

/-- Lazy `p+?` with capture: shortest nonempty `p`-prefix first. -/
def rePlusL (p : Char → Bool) (cs : List Char) (k : List Char → List Char → Option α) :
    Option α :=
  firstSome ((List.range ((cs.takeWhile p).length)).map fun i => i + 1)
    fun n => k (cs.take n) (cs.drop n)

/-- A literal token. -/
def litTok (tok : List Char) (cs : List Char) (k : List Char → Option α) : Option α :=
  if beginsWith tok cs then k (cs.drop tok.length) else none

/-- An alternation of literal tokens tried left to right (a trailing `[]`
encodes an optional group's empty branch). -/
def altOpt (alts : List (List Char)) (cs : List Char) (k : List Char → Option α) : Option α :=
  firstSome alts fun t => litTok t cs k

def digitComma (c : Char) : Bool := c.isDigit || c == ','

/-- `.` — any character but a newline (no DOTALL flag in the source). -/
def dotChar (c : Char) : Bool := c != '\n'

/-- The optional capture group `(/\s*[0-9,]+)?`, greedy: the group is tried
first, and the empty branch is taken only when the group together with the
whole continuation fails. -/
def denomOpt (cs : List Char) (k : Option (List Char) → List Char → Option α) : Option α :=
  (match cs with
   | '/' :: r =>
     reStarG wsChar r fun rr =>
     rePlusG digitComma rr fun d rrr =>
     k (some ('/' :: ((r.take (r.length - rr.length)) ++ d))) rrr
   | _ => none).orElse
  fun _ => k none cs

/-- The four captures of the header regex plus the length of the whole match
(`group(0)` is the first `g0len` characters of the input). -/
structure HeadGroups where
  eqs : List Char
  title : List Char
  cnt : List Char
  denom : Option (List Char)
  g0len : Nat
deriving DecidableEq, Repr

/-- Continuation of `matchHeader` from the position just after the count
capture. -/
def mhAfterCnt (eqs title cnt : List Char) (cslen : Nat) (r7 : List Char) :
    Option HeadGroups :=
  reStarG wsChar r7 fun r8 =>
  altOpt ["articles".data, "article".data, []] r8 fun r9 =>
  reStarG wsChar r9 fun r10 =>
  denomOpt r10 fun denom r11 =>
  reStarG wsChar r11 fun r12 =>
  altOpt ["articles".data, "article".data, " quota".data, []] r12 fun r13 =>
  altOpt [")".data, []] r13 fun r14 =>
  reStarG wsChar r14 fun r15 =>
  let e := (r15.takeWhile fun c => c == '=').length
  if e == 0 then none
  else some (HeadGroups.mk eqs title cnt denom (cslen - (r15.length - e)))

/-- `re.match` of the header regex of line 202 against `cs`. -/
def matchHeader (cs : List Char) : Option HeadGroups :=
  rePlusG (fun c => c == '=') cs fun eqs r1 =>
  reStarG wsChar r1 fun r2 =>
  rePlusL dotChar r2 fun title r3 =>
  reStarG wsChar r3 fun r4 =>
  match r4 with
  | c :: r5 =>
    if c == '(' || c == ':' then
      reStarL wsChar r5 fun r6 =>
      rePlusG digitComma r6 fun cnt r7 =>
      mhAfterCnt eqs title cnt cs.length r7
    else none
  | [] => none

/-- The heading-count regex of line 224 anchored at the current position;
returns the `([0-9,]+)` capture. -/
def countAt (cs : List Char) : Option (List Char) :=
  rePlusG digitComma cs fun cnt r1 =>
  reStarG wsChar r1 fun r2 =>
  altOpt ["articles".data, "article".data, []] r2 fun r3 =>
  reStarG wsChar r3 fun r4 =>
  denomOpt r4 fun _ r5 =>
  reStarG wsChar r5 fun r6 =>
  altOpt ["articles".data, "article".data, " quota".data, []] r6 fun r7 =>
  match r7 with
  | ')' :: _ => some cnt
  | _ => none

/-- `re.search` of the heading-count regex: leftmost starting position wins. -/
def searchCount : List Char → Option (List Char)
  | [] => none
  | c :: cs => (countAt (c :: cs)).orElse fun _ => searchCount cs

/-! ### Section recount and header rewrite (`treat_page`, lines 197-215) -/

/-- Lines 199-201: count `"# {{Icon"` occurrences in the section text,
falling back to `"* {{Icon"` when the primary count is zero. -/
def section_count (s : String) : Nat :=
  let c1 := countSub "# \x7b\x7bIcon".data s.data
  if c1 == 0 then countSub "* \x7b\x7bIcon".data s.data else c1

/-- One iteration of the `for section in wikicode.get_sections(...)` loop:
recount the section, match the header regex against the section text, and if
it matches, replace the matched prefix with the freshly formatted header
(the format string of lines 207-212 followed by the
`new_header.replace("article quota", "quota")` of line 214; note
`has_quota` tests the whole section text, line 203). A non-matching section
is returned unchanged. -/
def treat_section (s : String) : String :=
  let cs := s.data
  let article_count := section_count s
  let has_quota := containsSub "quota".data cs
  match matchHeader cs with
  | none => s
  | some g =>
    let plural := if article_count == 1 || has_quota then [] else "s".data
    let denomS := match g.denom with | none => ([] : List Char) | some d => d
    let nh := g.eqs ++ g.title ++ " (".data ++ (Nat.repr article_count).data ++ denomS
              ++ " article".data ++ plural
              ++ (if has_quota then " quota".data else []) ++ ")".data ++ g.eqs
    String.mk (replaceAllSub "article quota".data "quota".data nh ++ cs.drop g.g0len)

/-- Shared shape lemma for the header rewrite: when the header regex matches,
`treat_section` replaces the matched prefix by the rebuilt header — the
captured `=`-run written on both sides, the captured title verbatim, then
`" ("`, the decimal rendering of the fresh count, the captured denominator
verbatim, the word `" article"` with a plural `"s"` unless the count is 1 or
the section mentions `"quota"`, the `" quota"` keyword exactly when the
section mentions `"quota"`, and `")"` — all run through the final
`"article quota"` → `"quota"` replacement. -/
theorem treat_section_match (s : String) (g : HeadGroups)
    (hm : matchHeader s.data = some g) :
    treat_section s = String.mk
      (replaceAllSub "article quota".data "quota".data
        (g.eqs ++ g.title ++ " (".data ++ (Nat.repr (section_count s)).data
          ++ (match g.denom with | none => ([] : List Char) | some d => d)
          ++ " article".data
          ++ (if section_count s == 1 || containsSub "quota".data s.data then []
              else "s".data)
          ++ (if containsSub "quota".data s.data then " quota".data else [])
          ++ ")".data ++ g.eqs)
        ++ s.data.drop g.g0len) := by
  simp only [treat_section, hm]

/-- C4 counterexample: the spec's example heading `"== Foo (5 articles) =="`
with an actual item count of 7 is not rewritten to
`"== Foo (7 articles) =="`; the code also normalizes the whitespace around
the title, producing `"==Foo (7 articles)=="`. -/
theorem C4_counterexample :
    treat_section ("== Foo (5 articles) ==\n# \x7b\x7bIcon|b\x7d\x7d [[A]]\n# \x7b\x7bIcon|c\x7d\x7d [[B]]\n# \x7b\x7bIcon|c\x7d\x7d [[C]]\n# \x7b\x7bIcon|c\x7d\x7d [[D]]\n# \x7b\x7bIcon|c\x7d\x7d [[E]]\n# \x7b\x7bIcon|c\x7d\x7d [[F]]\n# \x7b\x7bIcon|c\x7d\x7d [[G]]\n")
      = "==Foo (7 articles)==\n# \x7b\x7bIcon|b\x7d\x7d [[A]]\n# \x7b\x7bIcon|c\x7d\x7d [[B]]\n# \x7b\x7bIcon|c\x7d\x7d [[C]]\n# \x7b\x7bIcon|c\x7d\x7d [[D]]\n# \x7b\x7bIcon|c\x7d\x7d [[E]]\n# \x7b\x7bIcon|c\x7d\x7d [[F]]\n# \x7b\x7bIcon|c\x7d\x7d [[G]]\n"
    ∧ treat_section ("== Foo (5 articles) ==\n# \x7b\x7bIcon|b\x7d\x7d [[A]]\n# \x7b\x7bIcon|c\x7d\x7d [[B]]\n# \x7b\x7bIcon|c\x7d\x7d [[C]]\n# \x7b\x7bIcon|c\x7d\x7d [[D]]\n# \x7b\x7bIcon|c\x7d\x7d [[E]]\n# \x7b\x7bIcon|c\x7d\x7d [[F]]\n# \x7b\x7bIcon|c\x7d\x7d [[G]]\n")
      ≠ "== Foo (7 articles) ==\n# \x7b\x7bIcon|b\x7d\x7d [[A]]\n# \x7b\x7bIcon|c\x7d\x7d [[B]]\n# \x7b\x7bIcon|c\x7d\x7d [[C]]\n# \x7b\x7bIcon|c\x7d\x7d [[D]]\n# \x7b\x7bIcon|c\x7d\x7d [[E]]\n# \x7b\x7bIcon|c\x7d\x7d [[F]]\n# \x7b\x7bIcon|c\x7d\x7d [[G]]\n" := by
  exact ⟨by decide, by decide⟩

/-- C4 (amended): for every section whose heading matches the structured
pattern, the rewrite substitutes the freshly computed count, chooses the
word form `" article"`/`" articles"` by whether the count is 1 — with the
fixed quota form whenever the section text mentions `"quota"` — and
preserves the captured `/denominator` verbatim (general part); in
particular the spec's three examples produce `"==Foo (7 articles)=="`,
`"==Foo (1 article)=="` and `"==Foo (4/10 quota)=="`, with normalized
whitespace. -/
theorem C4_header_rewrite :
    (∀ (s : String) (g : HeadGroups), matchHeader s.data = some g →
      treat_section s = String.mk
        (replaceAllSub "article quota".data "quota".data
          (g.eqs ++ g.title ++ " (".data ++ (Nat.repr (section_count s)).data
            ++ (match g.denom with | none => ([] : List Char) | some d => d)
            ++ " article".data
            ++ (if section_count s == 1 || containsSub "quota".data s.data then []
                else "s".data)
            ++ (if containsSub "quota".data s.data then " quota".data else [])
            ++ ")".data ++ g.eqs)
          ++ s.data.drop g.g0len))
    ∧ treat_section ("== Foo (5 articles) ==\n# \x7b\x7bIcon|b\x7d\x7d [[A1]]\n# \x7b\x7bIcon|c\x7d\x7d [[A2]]\n# \x7b\x7bIcon|c\x7d\x7d [[A3]]\n# \x7b\x7bIcon|c\x7d\x7d [[A4]]\n# \x7b\x7bIcon|c\x7d\x7d [[A5]]\n# \x7b\x7bIcon|c\x7d\x7d [[A6]]\n# \x7b\x7bIcon|c\x7d\x7d [[A7]]\n")
      = "==Foo (7 articles)==\n# \x7b\x7bIcon|b\x7d\x7d [[A1]]\n# \x7b\x7bIcon|c\x7d\x7d [[A2]]\n# \x7b\x7bIcon|c\x7d\x7d [[A3]]\n# \x7b\x7bIcon|c\x7d\x7d [[A4]]\n# \x7b\x7bIcon|c\x7d\x7d [[A5]]\n# \x7b\x7bIcon|c\x7d\x7d [[A6]]\n# \x7b\x7bIcon|c\x7d\x7d [[A7]]\n"
    ∧ treat_section ("== Foo (5 articles) ==\n# \x7b\x7bIcon|b\x7d\x7d [[A1]]\n")
      = "==Foo (1 article)==\n# \x7b\x7bIcon|b\x7d\x7d [[A1]]\n"
    ∧ treat_section ("== Foo (3/10 quota) ==\n# \x7b\x7bIcon|b\x7d\x7d [[A1]]\n# \x7b\x7bIcon|c\x7d\x7d [[A2]]\n# \x7b\x7bIcon|c\x7d\x7d [[A3]]\n# \x7b\x7bIcon|c\x7d\x7d [[A4]]\n")
      = "==Foo (4/10 quota)==\n# \x7b\x7bIcon|b\x7d\x7d [[A1]]\n# \x7b\x7bIcon|c\x7d\x7d [[A2]]\n# \x7b\x7bIcon|c\x7d\x7d [[A3]]\n# \x7b\x7bIcon|c\x7d\x7d [[A4]]\n" := by
  refine ⟨treat_section_match, by decide, by decide, by decide⟩

/-- Witness for C4: the general part applied to a concrete one-item section,
with the match groups evaluated explicitly. -/
theorem C4_header_rewrite_witness :
    treat_section "==T (3)==\n# \x7b\x7bIcon|b\x7d\x7d [[A]]\n"
      = "==T (1 article)==\n# \x7b\x7bIcon|b\x7d\x7d [[A]]\n" := by
  have h := C4_header_rewrite.1 "==T (3)==\n# \x7b\x7bIcon|b\x7d\x7d [[A]]\n"
    (HeadGroups.mk "==".data "T".data "3".data none 9) (by decide)
  rw [h]
  decide

/-- C5 counterexample: a section whose heading is `"== Foo (5 articles) =="`
and whose actual count is already 5 — so the numeric count, the article
word, and the (absent) quota suffix are all unchanged — is still modified
by the rewrite: the whitespace around the title is dropped, giving
`"==Foo (5 articles)=="`. -/
theorem C5_counterexample :
    treat_section ("== Foo (5 articles) ==\n# \x7b\x7bIcon|b\x7d\x7d [[B1]]\n# \x7b\x7bIcon|c\x7d\x7d [[B2]]\n# \x7b\x7bIcon|c\x7d\x7d [[B3]]\n# \x7b\x7bIcon|c\x7d\x7d [[B4]]\n# \x7b\x7bIcon|c\x7d\x7d [[B5]]\n")
      ≠ "== Foo (5 articles) ==\n# \x7b\x7bIcon|b\x7d\x7d [[B1]]\n# \x7b\x7bIcon|c\x7d\x7d [[B2]]\n# \x7b\x7bIcon|c\x7d\x7d [[B3]]\n# \x7b\x7bIcon|c\x7d\x7d [[B4]]\n# \x7b\x7bIcon|c\x7d\x7d [[B5]]\n"
    ∧ treat_section ("== Foo (5 articles) ==\n# \x7b\x7bIcon|b\x7d\x7d [[B1]]\n# \x7b\x7bIcon|c\x7d\x7d [[B2]]\n# \x7b\x7bIcon|c\x7d\x7d [[B3]]\n# \x7b\x7bIcon|c\x7d\x7d [[B4]]\n# \x7b\x7bIcon|c\x7d\x7d [[B5]]\n")
      = "==Foo (5 articles)==\n# \x7b\x7bIcon|b\x7d\x7d [[B1]]\n# \x7b\x7bIcon|c\x7d\x7d [[B2]]\n# \x7b\x7bIcon|c\x7d\x7d [[B3]]\n# \x7b\x7bIcon|c\x7d\x7d [[B4]]\n# \x7b\x7bIcon|c\x7d\x7d [[B5]]\n" := by
  exact ⟨by decide, by decide⟩

/-- C5 (amended): a section whose heading does not match the pattern is
returned byte-identical (general part one); when the pattern matches, the
new heading is rebuilt with the captured `=`-run written verbatim on both
sides and the captured title written verbatim — only the count, the article
word, the quota suffix, and the whitespace between these tokens (normalized
away) may change, up to the final `"article quota"` → `"quota"` replacement
(general part two); a section whose heading is already in normalized form
with the correct count is a fixed point (concrete part). -/
theorem C5_heading_preservation :
    (∀ s : String, matchHeader s.data = none → treat_section s = s)
    ∧ (∀ (s : String) (g : HeadGroups), matchHeader s.data = some g →
        treat_section s = String.mk
          (replaceAllSub "article quota".data "quota".data
            (g.eqs ++ g.title ++ " (".data ++ (Nat.repr (section_count s)).data
              ++ (match g.denom with | none => ([] : List Char) | some d => d)
              ++ " article".data
              ++ (if section_count s == 1 || containsSub "quota".data s.data then []
                  else "s".data)
              ++ (if containsSub "quota".data s.data then " quota".data else [])
              ++ ")".data ++ g.eqs)
            ++ s.data.drop g.g0len))
    ∧ treat_section ("==Foo (2 articles)==\n# \x7b\x7bIcon|b\x7d\x7d [[B1]]\n# \x7b\x7bIcon|c\x7d\x7d [[B2]]\n")
      = "==Foo (2 articles)==\n# \x7b\x7bIcon|b\x7d\x7d [[B1]]\n# \x7b\x7bIcon|c\x7d\x7d [[B2]]\n" := by
  refine ⟨?_, treat_section_match, by decide⟩
  intro s hm
  simp only [treat_section, hm]

/-- Witness for C5: a section whose heading has no parenthesized count does
not match the pattern and is left byte-identical. -/
theorem C5_heading_preservation_witness :
    treat_section "==Just a title==\n# \x7b\x7bIcon|b\x7d\x7d [[B1]]\n"
      = "==Just a title==\n# \x7b\x7bIcon|b\x7d\x7d [[B1]]\n" := by
  exact C5_heading_preservation.1 "==Just a title==\n# \x7b\x7bIcon|b\x7d\x7d [[B1]]\n" (by decide)

/-! ### Total aggregation and the summary marker (`treat_page`, lines 217-237) -/

/-- Capitalize the first character (MediaWiki page-name normalization). -/
def capFirst (s : String) : String :=
  match s.data with
  | [] => ""
  | c :: cs => String.mk (c.toUpper :: cs)

/-- mwparserfromhell `template.name.matches("huge")`: strip the name and
compare with the first letter case-folded (the names in play are plain text,
so `strip_code` is the identity). This is *not* a fully case-insensitive
comparison: only the first character is folded. -/
def hugeMatches (name : String) : Bool :=
  let a := strTrim name
  if a.data.isEmpty then false else capFirst a == "Huge"

/-- The aggregation stage's view of the page: every section as a
`(heading level, heading text)` pair in document order — the headings being
the already-rewritten ones, since the section loop runs first — plus the
page's template list. `wikicode.get_sections(levels=[i])` is the filter on
the first component; `str(section.filter_headings()[0])` is the second
component. -/
structure CountsPage where
  sections : List (Nat × String)
  templates : List Tmpl
deriving DecidableEq, Repr

/-- Lines 219-221: the first heading depth in 1..9 that has a section. -/
def total_level (secs : List (Nat × String)) : Option Nat :=
  (List.range' 1 9).find? fun i => secs.any fun s => s.1 == i

/-- Lines 222-227: sum the `([0-9,]+)` capture of each heading at the chosen
depth, skipping headings where the search fails; a capture that `int()`
cannot parse (a comma) is an uncaught ValueError, hence `none`. -/
def sum_counts : List (Nat × String) → Option Nat
  | [] => some 0
  | (_, h) :: rest =>
    match searchCount h.data with
    | none => sum_counts rest
    | some cnt =>
      match pyIntNat cnt with
      | none => none
      | some n => (sum_counts rest).map fun m => n + m

/-- Lines 218-228: the grand total (0 when no depth in 1..9 has sections). -/
def total_count (secs : List (Nat × String)) : Option Nat :=
  match total_level secs with
  | none => some 0
  | some i => sum_counts (secs.filter fun s => s.1 == i)

/-- Lines 232-237 for one template: a template whose name matches `"huge"`
gets its parameter `1` rewritten to `"Total articles: {total}"`, keeping a
`/denominator` suffix (apostrophes stripped) when the old value had a `/`;
a missing parameter `1` is an uncaught ValueError (`none`). Other templates
are untouched. -/
def update_huge_tmpl (total : Nat) (t : Tmpl) : Option Tmpl :=
  if hugeMatches t.name then
    match tmplGet t.params "1" with
    | none => none
    | some p =>
      let pv := (paramStr p).data
      let denom :=
        if containsSub "/".data pv then '/' :: stripSet ['\''] (lastField '/' pv)
        else []
      some (Tmpl.mk t.name (tmplSet t.params "1"
        (String.mk ("Total articles: ".data ++ (Nat.repr total).data ++ denom))))
  else some t

/-- Lines 231-237: the loop over all templates. -/
def update_huge (total : Nat) : List Tmpl → Option (List Tmpl)
  | [] => some []
  | t :: ts =>
    match update_huge_tmpl total t with
    | none => none
    | some t' => (update_huge total ts).map fun ts' => t' :: ts'

/-- The whole aggregation stage (lines 217-237). -/
def treat_totals (pg : CountsPage) : Option CountsPage :=
  match total_count pg.sections with
  | none => none
  | some tot => (update_huge tot pg.templates).map fun ts => CountsPage.mk pg.sections ts

/-- `find?` over a list whose prefix all fails the predicate finds `i`. -/
theorem find?_append_of_forall_false {α} (p : α → Bool) :
    ∀ (l1 : List α) (i : α) (l2 : List α),
      (∀ j ∈ l1, p j = false) → p i = true →
      List.find? p (l1 ++ i :: l2) = some i := by
  intro l1
  induction l1 with
  | nil => intro i l2 _ hp; simp [List.find?, hp]
  | cons a l ih =>
    intro i l2 hf hp
    have ha : p a = false := hf a (by simp)
    simp only [List.cons_append, List.find?, ha]
    exact ih i l2 (fun j hj => hf j (by simp [hj])) hp

/-- `[1..9]` split at `i`. -/
theorem range9_decomp (i : Nat) (h1 : 1 ≤ i) (h9 : i ≤ 9) :
    List.range' 1 9 = List.range' 1 (i - 1) ++ i :: List.range' (i + 1) (9 - i) := by
  interval_cases i <;> rfl

/-- The depth scan stops at the first depth in 1..9 that has a section. -/
theorem total_level_first (secs : List (Nat × String)) (i : Nat)
    (h1 : 1 ≤ i) (h9 : i ≤ 9)
    (hin : secs.any (fun s => s.1 == i) = true)
    (hmin : ∀ j, 1 ≤ j → j < i → secs.any (fun s => s.1 == j) = false) :
    total_level secs = some i := by
  show List.find? _ (List.range' 1 9) = some i
  rw [range9_decomp i h1 h9]
  refine find?_append_of_forall_false _ _ _ _ ?_ hin
  intro j hj
  have hb := List.mem_range'_1.mp hj
  exact hmin j hb.1 (by omega)

/-- C6 counterexample: three depth-2 sections with counts 3, 4, 5 give a
total of 12, yet a summary template named `"HUGE"` is left untouched — the
name comparison folds only the first letter, so `"HUGE"` does not match
`"huge"` and the claimed case-insensitive rewrite does not happen. -/
theorem C6_counterexample :
    total_count [(2, "==A (3 articles)=="), (2, "==B (4 articles)=="),
        (2, "==C (5 articles)==")] = some 12
    ∧ treat_totals (CountsPage.mk
        [(2, "==A (3 articles)=="), (2, "==B (4 articles)=="), (2, "==C (5 articles)==")]
        [Tmpl.mk "HUGE" [Param.mk "1" "x" false]])
      = some (CountsPage.mk
        [(2, "==A (3 articles)=="), (2, "==B (4 articles)=="), (2, "==C (5 articles)==")]
        [Tmpl.mk "HUGE" [Param.mk "1" "x" false]]) := by
  exact ⟨by decide, by decide⟩

/-- C6 (amended): the aggregator scans depths 1..9 in increasing order and
sums at the first populated depth (general part one); a template whose name
does not match `"huge"` up to surrounding whitespace and first-letter case
is untouched, and a matching one with a parameter `1` has it rewritten to
`"Total articles: {total}"` plus the preserved `/denominator` suffix of the
old value when present (general parts two and three); concretely, depth-2
sections with counts 3, 4, 5 (a depth-3 subsection being ignored) yield
`"Total articles: 12"` in a `huge` and in a `Huge` template, with a
`/1,000` denominator preserved and a non-matching template untouched. -/
theorem C6_total_aggregation :
    (∀ (secs : List (Nat × String)) (i : Nat), 1 ≤ i → i ≤ 9 →
        secs.any (fun s => s.1 == i) = true →
        (∀ j, 1 ≤ j → j < i → secs.any (fun s => s.1 == j) = false) →
        total_count secs = sum_counts (secs.filter fun s => s.1 == i))
    ∧ (∀ (total : Nat) (t : Tmpl), hugeMatches t.name = false →
        update_huge_tmpl total t = some t)
    ∧ (∀ (total : Nat) (t : Tmpl) (p : Param), hugeMatches t.name = true →
        tmplGet t.params "1" = some p →
        update_huge_tmpl total t = some (Tmpl.mk t.name (tmplSet t.params "1"
          (String.mk ("Total articles: ".data ++ (Nat.repr total).data
            ++ (if containsSub "/".data (paramStr p).data
                then '/' :: stripSet ['\''] (lastField '/' (paramStr p).data)
                else []))))))
    ∧ treat_totals (CountsPage.mk
        [(2, "==A (3 articles)=="), (2, "==B (4 articles)=="),
         (3, "===Sub (99 articles)==="), (2, "==C (5 articles)==")]
        [Tmpl.mk "huge" [Param.mk "1" "500/1,000" false],
         Tmpl.mk "Huge" [Param.mk "1" "x" false],
         Tmpl.mk "Infobox" [Param.mk "1" "y" false]])
      = some (CountsPage.mk
        [(2, "==A (3 articles)=="), (2, "==B (4 articles)=="),
         (3, "===Sub (99 articles)==="), (2, "==C (5 articles)==")]
        [Tmpl.mk "huge" [Param.mk "1" "Total articles: 12/1,000" false],
         Tmpl.mk "Huge" [Param.mk "1" "Total articles: 12" false],
         Tmpl.mk "Infobox" [Param.mk "1" "y" false]]) := by
  refine ⟨?_, ?_, ?_, by decide⟩
  · intro secs i h1 h9 hin hmin
    show (match total_level secs with
      | none => some 0
      | some i => sum_counts (secs.filter fun s => s.1 == i)) = _
    rw [total_level_first secs i h1 h9 hin hmin]
  · intro total t h
    simp only [update_huge_tmpl, h, Bool.false_eq_true, if_false]
  · intro total t p h hp
    simp only [update_huge_tmpl, h, if_true, hp]

/-- Witness for C6: the rewrite rule applied to a concrete `huge` template
whose old value carries a denominator. -/
theorem C6_total_aggregation_witness :
    update_huge_tmpl 12 (Tmpl.mk "huge" [Param.mk "1" "500/1,000" false])
      = some (Tmpl.mk "huge" [Param.mk "1" "Total articles: 12/1,000" false]) := by
  have h := C6_total_aggregation.2.2.1 12 (Tmpl.mk "huge" [Param.mk "1" "500/1,000" false])
    (Param.mk "1" "500/1,000" false) (by decide) (by decide)
  rw [h]
  decide

/-! ### Lines and icon reconciliation (`treat_page`, lines 239-276)

A `Line` is one group of the
`groupby(wikicode.filter(), lambda x: "\n" in x)` split (line 241): the
maximal runs of nodes whose serialization has no newline. The nodes the
bot's pages contain are list-item tag markers (`#`/`*`), plain text spans,
templates and wikilinks. -/

inductive Node where
  | text (s : String)
  | tag (markup : String)
  | template (t : Tmpl)
  | link (target : String) (display : Option String)
deriving DecidableEq, Repr

/-- `str(node)`. -/
def nodeStr : Node → String
  | .text s => s
  | .tag m => m
  | .template t => tmplStr t
  | .link t d => "[[" ++ t ++ (match d with | none => "" | some x => "|" ++ x) ++ "]]"

/-- Line 257: `"{{icon" in item.lower()`. -/
def iconish (nd : Node) : Bool :=
  containsSub "\x7b\x7bicon".data (lowerChars (nodeStr nd).data)

/-- Lines 180-190, `get_article_link`: the first node whose serialization
contains `"[["` but no `"<"`; strip `[`, `]` and `'` from both ends and cut
at the first `|`. -/
def get_article_link : List Node → Option String
  | [] => none
  | nd :: rest =>
    let s := (nodeStr nd).data
    if containsSub "[[".data s && !containsSub "<".data s then
      some (String.mk (takeUntil '|' (stripSet ['[', ']', '\''] s)))
    else get_article_link rest

/-- Line 247: the excluded namespace prefixes (substring tests). -/
def excludedTitle (t : String) : Bool :=
  subStr "Wikipedia:" t || subStr "Category:" t || subStr "User:" t
    || subStr "Template:" t || subStr "Portal:" t

/-- Where the last icon-marker node scanned so far sits: `first_templ` is
`None` (no icon node seen — `noIcon`), or points at a node that has since
been removed from the tree (`removed`, in which case a later
`insert_after` raises), or is the node now at index `i` of the scan output
(`at_ i`). -/
inductive Anch where
  | noIcon
  | removed
  | at_ (i : Nat)
deriving DecidableEq, Repr

/-- Anchor adjustment when a non-icon node is kept in front of the rest. -/
def consKept : Anch → Anch
  | .noIcon => .noIcon
  | .removed => .removed
  | .at_ i => .at_ (i + 1)

/-- Anchor adjustment when an icon node is kept in front: if no later icon
exists, this node is the last icon. -/
def consIconKept : Anch → Anch
  | .noIcon => .at_ 0
  | .removed => .removed
  | .at_ i => .at_ (i + 1)

/-- Anchor adjustment when an icon node is removed in front. -/
def consIconRemoved : Anch → Anch
  | .noIcon => .removed
  | a => a

/-- The `for item in line` scan of lines 252-271, processing the line left to
right with the running state `(count, dga_found, ffa_found)`. Returns the
surviving nodes (mutations applied, removals dropped), the final state and
the anchor. An `item` that serializes with `"{{icon"` but is not a template
node would make `item.get` raise AttributeError — an error. An icon
template without parameter `1` is the caught ValueError `continue` (kept,
nothing else changes except `first_templ`). Otherwise: the first parameter
is overwritten with the resolved class when it differs, is not protected
and `count < 1`; the sentinel flags absorb the *old* value; and the node is
removed when a dga (resp. ffa) sentinel has been seen and the class is
`"ga"` (resp. `"fa"`). -/
def iconScan (cls : String) : List Node → Nat → Bool → Bool →
    Except Unit (List Node × Nat × Bool × Bool × Anch)
  | [], c, d, f => .ok ([], c, d, f, .noIcon)
  | nd :: rest, c, d, f =>
    if iconish nd then
      match nd with
      | .template t =>
        match tmplGet t.params "1" with
        | none =>
          (iconScan cls rest c d f).map fun r =>
            (nd :: r.1, r.2.1, r.2.2.1, r.2.2.2.1, consIconKept r.2.2.2.2)
        | some p =>
          let e := strLower (paramStr p)
          let nd' := if e != cls && !(no_replace_list.contains e) && c < 1 then
              Node.template (Tmpl.mk t.name (tmplSet t.params "1" cls))
            else nd
          let d2 := d || (e == "dga")
          let f2 := f || (e == "ffa")
          if (d2 && cls == "ga") || (f2 && cls == "fa") then
            (iconScan cls rest (c + 1) d2 f2).map fun r =>
              (r.1, r.2.1, r.2.2.1, r.2.2.2.1, consIconRemoved r.2.2.2.2)
          else
            (iconScan cls rest (c + 1) d2 f2).map fun r =>
              (nd' :: r.1, r.2.1, r.2.2.1, r.2.2.2.1, consIconKept r.2.2.2.2)
      | _ => .error ()
    else
      (iconScan cls rest c d f).map fun r =>
        (nd :: r.1, r.2.1, r.2.2.1, r.2.2.2.1, consKept r.2.2.2.2)

/-- The two nodes `mwparserfromhell` parses out of `" {{icon|X}}"`. -/
def sentinelNodes (x : String) : List Node :=
  [Node.text " ", Node.template (Tmpl.mk "icon" [Param.mk "1" x false])]

/-- `wikicode.insert_after(first_templ, " {{icon|X}}")` (lines 274/276):
error when `first_templ` is `None` or no longer in the tree; otherwise the
two parsed nodes go immediately after the anchor node. -/
def insertIcon (a : Anch) (out : List Node) (x : String) : Except Unit (List Node) :=
  match a with
  | .at_ i => .ok (out.take (i + 1) ++ sentinelNodes x ++ out.drop (i + 1))
  | _ => .error ()

/-- Lines 252-276 for one line, given the resolved assessment
`(cls, is_dga, is_ffa)`: the icon scan, then a dga sentinel is inserted
after the last-scanned icon node when `is_dga` holds and none was seen,
then symmetrically an ffa sentinel. (Both insertions use the same
`first_templ` anchor, so a dga insertion is pushed one pair of nodes to the
right by a subsequent ffa insertion, exactly as two `insert_after` calls on
the same node behave.) -/
def treatLine (cls : String) (is_dga is_ffa : Bool) (line : List Node) :
    Except Unit (List Node) := do
  let r ← iconScan cls line 0 false false
  let out := r.1
  let d := r.2.2.1
  let f := r.2.2.2.1
  let anch := r.2.2.2.2
  let out1 ← if is_dga && !d then insertIcon anch out "dga" else .ok out
  let out2 ← if is_ffa && !f then insertIcon anch out1 "ffa" else .ok out1
  .ok out2

/-! ### Scan lemmas -/

/-- Anchor index shift under `n` kept non-icon nodes in front. -/
def anchShift (n : Nat) : Anch → Anch
  | .at_ i => .at_ (i + n)
  | a => a

theorem anchShift_zero (a : Anch) : anchShift 0 a = a := by
  cases a <;> rfl

theorem consKept_anchShift (n : Nat) (a : Anch) :
    consKept (anchShift n a) = anchShift (n + 1) a := by
  cases a <;> rfl

/-- Scanning past one non-icon node. -/
theorem iconScan_cons_skip (cls : String) (nd : Node) (rest : List Node) (c : Nat)
    (d f : Bool) (h : iconish nd = false) :
    iconScan cls (nd :: rest) c d f = (iconScan cls rest c d f).map fun r =>
      (nd :: r.1, r.2.1, r.2.2.1, r.2.2.2.1, consKept r.2.2.2.2) := by
  simp [iconScan, h]

/-- Scanning past an icon-free prefix keeps it verbatim and leaves the state
untouched. -/
theorem iconScan_skip_front (cls : String) :
    ∀ (l rest : List Node) (c : Nat) (d f : Bool),
      (∀ nd ∈ l, iconish nd = false) →
      iconScan cls (l ++ rest) c d f
        = (iconScan cls rest c d f).map fun r =>
            (l ++ r.1, r.2.1, r.2.2.1, r.2.2.2.1, anchShift l.length r.2.2.2.2) := by
  intro l
  induction l with
  | nil =>
    intro rest c d f _
    cases hr : iconScan cls rest c d f <;> simp [Except.map, anchShift_zero, hr]
  | cons nd l ih =>
    intro rest c d f hf
    have h0 : iconish nd = false := hf nd (by simp)
    rw [List.cons_append, iconScan_cons_skip cls nd (l ++ rest) c d f h0,
      ih rest c d f (fun x hx => hf x (by simp [hx]))]
    cases hr : iconScan cls rest c d f with
    | error e => rfl
    | ok r => simp [Except.map, consKept_anchShift]

/-- An icon-free list scans to itself with `first_templ` still `None`. -/
theorem iconScan_no_icon (cls : String) (l : List Node) (c : Nat) (d f : Bool)
    (hf : ∀ nd ∈ l, iconish nd = false) :
    iconScan cls l c d f = .ok (l, c, d, f, .noIcon) := by
  have h := iconScan_skip_front cls l [] c d f hf
  simpa [iconScan, Except.map, anchShift] using h

/-- Unfolding one icon-template step of the scan when parameter `1` exists. -/
theorem iconScan_icon_step (cls : String) (t : Tmpl) (rest : List Node) (c : Nat)
    (d f : Bool) (hic : iconish (Node.template t) = true) (p : Param)
    (hp : tmplGet t.params "1" = some p) :
    iconScan cls (Node.template t :: rest) c d f =
      (if (d || (strLower (paramStr p) == "dga")) && cls == "ga"
          || (f || (strLower (paramStr p) == "ffa")) && cls == "fa" then
        (iconScan cls rest (c + 1) (d || (strLower (paramStr p) == "dga"))
            (f || (strLower (paramStr p) == "ffa"))).map fun r =>
          (r.1, r.2.1, r.2.2.1, r.2.2.2.1, consIconRemoved r.2.2.2.2)
      else
        (iconScan cls rest (c + 1) (d || (strLower (paramStr p) == "dga"))
            (f || (strLower (paramStr p) == "ffa"))).map fun r =>
          ((if strLower (paramStr p) != cls
                && !(no_replace_list.contains (strLower (paramStr p))) && c < 1 then
              Node.template (Tmpl.mk t.name (tmplSet t.params "1" cls))
            else Node.template t) :: r.1,
           r.2.1, r.2.2.1, r.2.2.2.1, consIconKept r.2.2.2.2)) := by
  simp only [iconScan, hic, if_true, hp]

/-- Unfolding one icon-template step when parameter `1` is missing (the
caught ValueError `continue`). -/
theorem iconScan_icon_noparam (cls : String) (t : Tmpl) (rest : List Node) (c : Nat)
    (d f : Bool) (hic : iconish (Node.template t) = true)
    (hp : tmplGet t.params "1" = none) :
    iconScan cls (Node.template t :: rest) c d f =
      (iconScan cls rest c d f).map fun r =>
        (Node.template t :: r.1, r.2.1, r.2.2.1, r.2.2.2.1, consIconKept r.2.2.2.2) := by
  simp only [iconScan, hic, if_true, hp]

/-- The shorthand icon template `{{icon|v}}` used by the line stage. -/
def iconT (v : String) : Node :=
  Node.template (Tmpl.mk "icon" [Param.mk "1" v false])

theorem beginsWith_append_self : ∀ (pat rest : List Char), beginsWith pat (pat ++ rest) = true
  | [], _ => rfl
  | c :: cs, rest => by simp [beginsWith, beginsWith_append_self cs rest]

/-- A list beginning with the pattern contains it. -/
theorem containsSub_of_beginsWith :
    ∀ (pat l : List Char), beginsWith pat l = true → containsSub pat l = true := by
  intro pat l h
  cases l with
  | nil => simpa [containsSub] using h
  | cons c cs => simp [containsSub, h]

/-- Any `{{icon|v}}` node is an icon marker. -/
theorem iconish_iconT (v : String) : iconish (iconT v) = true := by
  have hdata : (nodeStr (iconT v)).data
      = "\x7b\x7bicon|".data ++ v.data ++ "\x7d\x7d".data := by
    simp [nodeStr, iconT, tmplStr, paramStr, String.join]
  have hlow : lowerChars (nodeStr (iconT v)).data
      = "\x7b\x7bicon".data ++ ('|' :: (lowerChars v.data ++ "\x7d\x7d".data)) := by
    rw [hdata]
    simp only [lowerChars, List.map_append]
    rw [show List.map Char.toLower "\x7b\x7bicon|".data = "\x7b\x7bicon|".data from by decide,
      show List.map Char.toLower "\x7d\x7d".data = "\x7d\x7d".data from by decide]
    simp
  rw [iconish, hlow]
  exact containsSub_of_beginsWith _ _ (beginsWith_append_self _ _)

set_option linter.unusedVariables false in
/-- C10: a line that begins with a list-item marker, has a qualifying
primary link, but contains no icon-marker node at all, fails the whole
transformation (insert_after on a `None` anchor raises) whenever the
resolved assessment sets a historical flag — sentinel insertion requires an
icon marker already present; the eligibility hypotheses mirror lines
245-248 and are not needed for the failure itself. -/
theorem C10_insert_without_anchor_fails (line : List Node) (cls : String)
    (is_dga is_ffa : Bool) (hd : Node)
    (hhead : line.head? = some hd)
    (hmark : nodeStr hd = "#" ∨ nodeStr hd = "*")
    (t : String)
    (hlink : get_article_link line = some t)
    (hexcl : excludedTitle t = false)
    (hnoicon : ∀ nd ∈ line, iconish nd = false)
    (hflag : is_dga = true ∨ is_ffa = true) :
    treatLine cls is_dga is_ffa line = .error () := by
  have hs := iconScan_no_icon cls line 0 false false hnoicon
  unfold treatLine
  rw [hs]
  rcases hflag with h | h <;> subst h
  · simp [insertIcon, Bind.bind, Except.bind]
  · cases hD : is_dga <;> simp [insertIcon, Bind.bind, Except.bind]

/-- Witness for C10: the simplest eligible line with no icon template. -/
theorem C10_insert_without_anchor_fails_witness :
    treatLine "b" true false [Node.tag "#", Node.text " ", Node.link "Foo" none]
      = .error () := by
  exact C10_insert_without_anchor_fails
    [Node.tag "#", Node.text " ", Node.link "Foo" none] "b" true false
    (Node.tag "#") rfl (Or.inl rfl) "Foo" (by decide) (by decide)
    (by decide) (Or.inl rfl)

/-- `treatLine` with both historical flags false is just the scan output. -/
theorem treatLine_false_false (cls : String) (l : List Node) :
    treatLine cls false false l = (iconScan cls l 0 false false).map fun r => r.1 := by
  unfold treatLine
  cases hr : iconScan cls l 0 false false <;> simp [Bind.bind, Except.bind, Except.map, hr]

/-- One scan step on a plain `{{icon|v}}` node. -/
theorem iconScan_iconT_step (cls v : String) (rest : List Node) (c : Nat) (d f : Bool) :
    iconScan cls (iconT v :: rest) c d f =
      (if (d || (strLower v == "dga")) && cls == "ga"
          || (f || (strLower v == "ffa")) && cls == "fa" then
        (iconScan cls rest (c + 1) (d || (strLower v == "dga"))
            (f || (strLower v == "ffa"))).map fun r =>
          (r.1, r.2.1, r.2.2.1, r.2.2.2.1, consIconRemoved r.2.2.2.2)
      else
        (iconScan cls rest (c + 1) (d || (strLower v == "dga"))
            (f || (strLower v == "ffa"))).map fun r =>
          ((if strLower v != cls && !(no_replace_list.contains (strLower v)) && c < 1 then
              iconT cls
            else iconT v) :: r.1,
           r.2.1, r.2.2.1, r.2.2.2.1, consIconKept r.2.2.2.2)) := by
  have h := iconScan_icon_step cls (Tmpl.mk "icon" [Param.mk "1" v false]) rest c d f
    (iconish_iconT v) (Param.mk "1" v false) rfl
  have hset : tmplSet [Param.mk "1" v false] "1" cls = [Param.mk "1" cls false] := rfl
  have hps : paramStr (Param.mk "1" v false) = v := rfl
  simp only [iconT]
  rw [h, hps, hset]

/-- C7 counterexample: on the line
`# {{icon|b}} {{icon|dga}} {{icon|c}} [[Foo]]` with resolved class `"ga"`,
the first icon is set to `"ga"` and the dga sentinel is removed, but the
`{{icon|c}}` marker following the sentinel is removed as well — it is not
kept as the claim asserts. -/
theorem C7_counterexample :
    treatLine "ga" false false
      [Node.tag "#", Node.text " ", iconT "b", Node.text " ", iconT "dga",
       Node.text " ", iconT "c", Node.text " ", Node.link "Foo" none]
      = .ok [Node.tag "#", Node.text " ", iconT "ga", Node.text " ", Node.text " ",
             Node.text " ", Node.link "Foo" none]
    ∧ iconT "c" ∉
        [Node.tag "#", Node.text " ", iconT "ga", Node.text " ", Node.text " ",
         Node.text " ", Node.link "Foo" none] := by
  exact ⟨by rfl, by decide⟩

/-- Scan step of the first icon on a class-`"ga"` line: an unprotected,
differing first parameter is overwritten with `"ga"` and the node kept. -/
theorem iconScan_step_first_ga (x : String) (rest : List Node)
    (hxd : (strLower x == "dga") = false) (hxf : (strLower x == "ffa") = false)
    (hxg : (strLower x == "ga") = false)
    (hpr : no_replace_list.contains (strLower x) = false) :
    iconScan "ga" (iconT x :: rest) 0 false false
      = (iconScan "ga" rest 1 false false).map fun r =>
          (iconT "ga" :: r.1, r.2.1, r.2.2.1, r.2.2.2.1, consIconKept r.2.2.2.2) := by
  have hxg2 : ¬ strLower x = "ga" := by simpa using hxg
  have hpr2 : strLower x ∉ no_replace_list := by simpa using hpr
  rw [iconScan_iconT_step]
  simp [hxd, hxf, hxg2, hpr2]

/-- Scan step of a dga sentinel on a class-`"ga"` line: the sentinel is
removed and `dga_found` becomes true. -/
theorem iconScan_step_dga_ga (rest : List Node) (c : Nat) (f : Bool) :
    iconScan "ga" (iconT "dga" :: rest) c false f
      = (iconScan "ga" rest (c + 1) true (f || (strLower "dga" == "ffa"))).map fun r =>
          (r.1, r.2.1, r.2.2.1, r.2.2.2.1, consIconRemoved r.2.2.2.2) := by
  have h1 : strLower "dga" = "dga" := rfl
  rw [iconScan_iconT_step]
  simp [h1]

/-- Scan step of any icon after `dga_found` on a class-`"ga"` line: the
marker is removed, whatever its parameter. -/
theorem iconScan_step_after_dga_ga (y : String) (rest : List Node) (c : Nat) (f : Bool) :
    iconScan "ga" (iconT y :: rest) c true f
      = (iconScan "ga" rest (c + 1) true (f || (strLower y == "ffa"))).map fun r =>
          (r.1, r.2.1, r.2.2.1, r.2.2.2.1, consIconRemoved r.2.2.2.2) := by
  rw [iconScan_iconT_step]
  simp

/-- C7 (amended): on a line with resolved class `"ga"` and flags false whose
icon markers are a non-protected first marker `x`, then the dga sentinel,
then a further marker `y` (arbitrary non-icon nodes in between), the
reconciliation sets the first marker to `"ga"`, removes the sentinel, and
also removes every icon marker scanned after the sentinel; only the nodes
before the sentinel are kept. -/
theorem C7_sentinel_removal (p0 p1 p2 p3 : List Node) (x y : String)
    (h0 : ∀ nd ∈ p0, iconish nd = false)
    (h1 : ∀ nd ∈ p1, iconish nd = false)
    (h2 : ∀ nd ∈ p2, iconish nd = false)
    (h3 : ∀ nd ∈ p3, iconish nd = false)
    (hxd : (strLower x == "dga") = false) (hxf : (strLower x == "ffa") = false)
    (hxg : (strLower x == "ga") = false)
    (hpr : no_replace_list.contains (strLower x) = false) :
    treatLine "ga" false false
      (p0 ++ iconT x :: (p1 ++ iconT "dga" :: (p2 ++ iconT y :: p3)))
      = .ok (p0 ++ iconT "ga" :: (p1 ++ (p2 ++ p3))) := by
  rw [treatLine_false_false]
  rw [iconScan_skip_front "ga" p0 _ 0 false false h0]
  rw [iconScan_step_first_ga x _ hxd hxf hxg hpr]
  rw [iconScan_skip_front "ga" p1 _ 1 false false h1]
  rw [iconScan_step_dga_ga _ 1 false]
  rw [show (false || (strLower "dga" == "ffa")) = false from rfl]
  rw [iconScan_skip_front "ga" p2 _ 2 true false h2]
  rw [iconScan_step_after_dga_ga y _ 2 false]
  rw [iconScan_no_icon "ga" p3 3 true (false || (strLower y == "ffa")) h3]
  simp [Except.map]

/-- Witness for C7: a typical line `# {{icon|b}} {{icon|dga}} {{icon|c}}
[[Foo]]` instantiating the amended statement. -/
theorem C7_sentinel_removal_witness :
    treatLine "ga" false false
      [Node.tag "#", Node.text " ", iconT "b", Node.text " ", iconT "dga",
       Node.text " ", iconT "c", Node.text " ", Node.link "Foo" none]
      = .ok [Node.tag "#", Node.text " ", iconT "ga", Node.text " ", Node.text " ",
             Node.text " ", Node.link "Foo" none] := by
  have h := C7_sentinel_removal [Node.tag "#", Node.text " "] [Node.text " "]
    [Node.text " "] [Node.text " ", Node.link "Foo" none] "b" "c"
    (by decide) (by decide) (by decide) (by decide)
    (by decide) (by decide) (by decide) (by decide)
  simpa using h

/-- `treatLine` with `is_dga = false`, `is_ffa = true`: scan, then insert an
ffa sentinel after `first_templ` unless one was found. -/
theorem treatLine_false_true (cls : String) (l out : List Node) (c : Nat) (d f : Bool)
    (a : Anch) (hs : iconScan cls l 0 false false = .ok (out, c, d, f, a)) :
    treatLine cls false true l = if f then .ok out else insertIcon a out "ffa" := by
  unfold treatLine
  rw [hs]
  cases f
  · cases a <;> simp [Bind.bind, Except.bind, insertIcon]
  · simp [Bind.bind, Except.bind]

theorem iconScan_step_c0_b (rest : List Node) :
    iconScan "b" (iconT "c" :: rest) 0 false false
      = (iconScan "b" rest 1 false false).map fun r =>
          (iconT "b" :: r.1, r.2.1, r.2.2.1, r.2.2.2.1, consIconKept r.2.2.2.2) := rfl

theorem iconScan_step_start1_b (rest : List Node) :
    iconScan "b" (iconT "start" :: rest) 1 false false
      = (iconScan "b" rest 2 false false).map fun r =>
          (iconT "start" :: r.1, r.2.1, r.2.2.1, r.2.2.2.1, consIconKept r.2.2.2.2) := rfl

theorem iconScan_step_b0_b (rest : List Node) :
    iconScan "b" (iconT "b" :: rest) 0 false false
      = (iconScan "b" rest 1 false false).map fun r =>
          (iconT "b" :: r.1, r.2.1, r.2.2.1, r.2.2.2.1, consIconKept r.2.2.2.2) := rfl

theorem iconScan_step_ffa2_b (rest : List Node) :
    iconScan "b" (iconT "ffa" :: rest) 2 false false
      = (iconScan "b" rest 3 false true).map fun r =>
          (iconT "ffa" :: r.1, r.2.1, r.2.2.1, r.2.2.2.1, consIconKept r.2.2.2.2) := rfl

/-- C8 counterexample: on `# {{icon|c}} {{icon|start}} [[Foo]]` with
resolved class `"b"` and `is_ffa` true, the new ffa sentinel lands
immediately after the *second* (last-scanned) icon marker, not after the
first one as the claim asserts. -/
theorem C8_counterexample :
    treatLine "b" false true
      [Node.tag "#", Node.text " ", iconT "c", Node.text " ", iconT "start",
       Node.text " ", Node.link "Foo" none]
      = .ok [Node.tag "#", Node.text " ", iconT "b", Node.text " ", iconT "start",
             Node.text " ", iconT "ffa", Node.text " ", Node.link "Foo" none]
    ∧ [Node.tag "#", Node.text " ", iconT "b", Node.text " ", iconT "start",
       Node.text " ", iconT "ffa", Node.text " ", Node.link "Foo" none]
      ≠ [Node.tag "#", Node.text " ", iconT "b", Node.text " ", iconT "ffa",
         Node.text " ", iconT "start", Node.text " ", Node.link "Foo" none] := by
  exact ⟨by rfl, by decide⟩

/-- C8 (amended): with resolved class `"b"`, `is_ffa` true and no sentinel
on the line, the new ffa sentinel is inserted immediately after the *last*
icon-marker template of the line (`first_templ` holds the most recently
scanned icon node), and running reconciliation again on the result changes
nothing — no second sentinel is inserted. -/
theorem C8_sentinel_insertion (p0 p1 p2 : List Node)
    (h0 : ∀ nd ∈ p0, iconish nd = false)
    (h1 : ∀ nd ∈ p1, iconish nd = false)
    (h2 : ∀ nd ∈ p2, iconish nd = false) :
    treatLine "b" false true (p0 ++ iconT "c" :: (p1 ++ iconT "start" :: p2))
      = .ok ((p0 ++ iconT "b" :: (p1 ++ [iconT "start"])) ++ (sentinelNodes "ffa" ++ p2))
    ∧ treatLine "b" false true
        ((p0 ++ iconT "b" :: (p1 ++ [iconT "start"])) ++ (sentinelNodes "ffa" ++ p2))
      = .ok ((p0 ++ iconT "b" :: (p1 ++ [iconT "start"])) ++ (sentinelNodes "ffa" ++ p2)) := by
  constructor
  · have hs : iconScan "b" (p0 ++ iconT "c" :: (p1 ++ iconT "start" :: p2)) 0 false false
        = .ok (p0 ++ iconT "b" :: (p1 ++ iconT "start" :: p2), 2, false, false,
               Anch.at_ (p1.length + 1 + p0.length)) := by
      rw [iconScan_skip_front "b" p0 _ 0 false false h0,
        iconScan_step_c0_b,
        iconScan_skip_front "b" p1 _ 1 false false h1,
        iconScan_step_start1_b,
        iconScan_no_icon "b" p2 2 false false h2]
      simp [Except.map, consIconKept, anchShift]
    rw [treatLine_false_true "b" _ _ _ _ _ _ hs]
    have hA : p0 ++ iconT "b" :: (p1 ++ iconT "start" :: p2)
        = (p0 ++ iconT "b" :: (p1 ++ [iconT "start"])) ++ p2 := by simp
    have hlen : (p0 ++ iconT "b" :: (p1 ++ [iconT "start"])).length
        = p1.length + 1 + p0.length + 1 := by
      simp
      omega
    simp only [insertIcon, if_false, Bool.false_eq_true]
    rw [hA, List.take_left' hlen, List.drop_left' hlen]
    simp [List.append_assoc]
  · have hL2 : (p0 ++ iconT "b" :: (p1 ++ [iconT "start"])) ++ (sentinelNodes "ffa" ++ p2)
        = p0 ++ iconT "b" :: (p1 ++ iconT "start" :: (Node.text " " :: iconT "ffa" :: p2)) := by
      simp [sentinelNodes, iconT, List.append_assoc]
    rw [hL2]
    have hs2 : iconScan "b"
        (p0 ++ iconT "b" :: (p1 ++ iconT "start" :: (Node.text " " :: iconT "ffa" :: p2)))
        0 false false
        = .ok (p0 ++ iconT "b" :: (p1 ++ iconT "start" :: (Node.text " " :: iconT "ffa" :: p2)),
               3, false, true, Anch.at_ (2 + p1.length + 1 + p0.length)) := by
      rw [iconScan_skip_front "b" p0 _ 0 false false h0,
        iconScan_step_b0_b,
        iconScan_skip_front "b" p1 _ 1 false false h1,
        iconScan_step_start1_b,
        iconScan_cons_skip "b" (Node.text " ") _ 2 false false rfl,
        iconScan_step_ffa2_b,
        iconScan_no_icon "b" p2 3 false true h2]
      simp [Except.map, consIconKept, consKept, anchShift]
    rw [treatLine_false_true "b" _ _ _ _ _ _ hs2]
    simp

/-- Witness for C8: the amended statement on the concrete line
`# {{icon|c}} {{icon|start}} [[Foo]]`. -/
theorem C8_sentinel_insertion_witness :
    treatLine "b" false true
      [Node.tag "#", Node.text " ", iconT "c", Node.text " ", iconT "start",
       Node.text " ", Node.link "Foo" none]
      = .ok [Node.tag "#", Node.text " ", iconT "b", Node.text " ", iconT "start",
             Node.text " ", iconT "ffa", Node.text " ", Node.link "Foo" none] := by
  have h := (C8_sentinel_insertion [Node.tag "#", Node.text " "] [Node.text " "]
    [Node.text " ", Node.link "Foo" none] (by decide) (by decide) (by decide)).1
  simpa [sentinelNodes] using h

/-- C9 counterexample: the line `# {{icon|b}} [[Foo]]` with resolved class
`"fa"` and `is_ffa` true. The first pass rewrites the icon to `"fa"` and
inserts an ffa sentinel; the second pass *removes* that sentinel
(`ffa_found` and class `"fa"` trigger the removal), so the second pass
changes the tree again — reconciliation is not idempotent. -/
theorem C9_counterexample :
    treatLine "fa" false true
      [Node.tag "#", Node.text " ", iconT "b", Node.text " ", Node.link "Foo" none]
      = .ok [Node.tag "#", Node.text " ", iconT "fa", Node.text " ", iconT "ffa",
             Node.text " ", Node.link "Foo" none]
    ∧ treatLine "fa" false true
        [Node.tag "#", Node.text " ", iconT "fa", Node.text " ", iconT "ffa",
         Node.text " ", Node.link "Foo" none]
      = .ok [Node.tag "#", Node.text " ", iconT "fa", Node.text " ",
             Node.text " ", Node.link "Foo" none]
    ∧ ([Node.tag "#", Node.text " ", iconT "fa", Node.text " ",
        Node.text " ", Node.link "Foo" none] : List Node)
      ≠ [Node.tag "#", Node.text " ", iconT "fa", Node.text " ", iconT "ffa",
         Node.text " ", Node.link "Foo" none] := by
  exact ⟨by rfl, by rfl, by decide⟩

/-! ### Idempotence of the flag-free scan -/

/-- A well-formed icon marker: a template whose name begins with `icon` (up
to case) and whose parameters are all positional. Every `{{icon|...}}` and
`{{Icon|...}}` node is of this shape. -/
def properIcon : Node → Bool
  | .template t => beginsWith "icon".data (lowerChars t.name.data)
      && t.params.all (fun p => !p.showkey)
  | _ => false

/-- Nodes the scan can never touch: non-markers, and parameterless marker
templates. -/
def inertNode (nd : Node) : Prop :=
  iconish nd = false ∨ ∃ t, nd = Node.template t ∧ tmplGet t.params "1" = none

theorem Except.map_eq_ok {α β : Type} {f : α → β} {x : Except Unit α} {b : β}
    (h : x.map f = .ok b) : ∃ a, x = .ok a ∧ f a = b := by
  cases x with
  | error e => simp [Except.map] at h
  | ok a => exact ⟨a, rfl, by simpa [Except.map] using h⟩

/-- A scan over inert nodes returns them unchanged with the state intact. -/
theorem iconScan_inert (cls : String) :
    ∀ (l : List Node) (c : Nat) (d f : Bool),
      (∀ nd ∈ l, inertNode nd) →
      ∃ a, iconScan cls l c d f = .ok (l, c, d, f, a) := by
  intro l
  induction l with
  | nil => intro c d f _; exact ⟨.noIcon, rfl⟩
  | cons nd rest ih =>
    intro c d f h
    obtain ⟨a, ha⟩ := ih c d f (fun x hx => h x (by simp [hx]))
    rcases h nd (by simp) with hic | ⟨t, rfl, hget⟩
    · exact ⟨consKept a, by rw [iconScan_cons_skip cls nd rest c d f hic, ha]; rfl⟩
    · cases hic : iconish (Node.template t) with
      | false => exact ⟨consKept a, by rw [iconScan_cons_skip _ _ _ _ _ _ hic, ha]; rfl⟩
      | true =>
        exact ⟨consIconKept a,
          by rw [iconScan_icon_noparam cls t rest c d f hic hget, ha]; rfl⟩

/-- A node that serializes with `"{{icon"` but is not a template makes the
scan fail (Python AttributeError on `item.get`). -/
theorem iconScan_cons_error (cls : String) (nd : Node) (rest : List Node) (c : Nat)
    (d f : Bool) (hic : iconish nd = true) (hnt : ∀ t, nd ≠ Node.template t) :
    iconScan cls (nd :: rest) c d f = .error () := by
  cases nd with
  | template t => exact absurd rfl (hnt t)
  | text s => simp [iconScan, hic]
  | tag m => simp [iconScan, hic]
  | link a b => simp [iconScan, hic]

/-- Once a removal has been triggered (a sentinel was found and the class is
the matching full status), every later icon marker with a parameter is
removed: the scan's output from a triggered state consists of inert nodes
only. -/
theorem iconScan_swallow (cls : String) :
    ∀ (l : List Node) (c : Nat) (d f : Bool) (out : List Node) (c1 : Nat)
      (d1 f1 : Bool) (a1 : Anch),
      ((d && (cls == "ga")) || (f && (cls == "fa"))) = true →
      iconScan cls l c d f = .ok (out, c1, d1, f1, a1) →
      ∀ nd ∈ out, inertNode nd := by
  intro l
  induction l with
  | nil =>
    intro c d f out c1 d1 f1 a1 _ heq nd hnd
    simp only [iconScan, Except.ok.injEq, Prod.mk.injEq] at heq
    rw [← heq.1] at hnd
    simp at hnd
  | cons nd0 rest ih =>
    intro c d f out c1 d1 f1 a1 htrig heq
    cases hic : iconish nd0 with
    | false =>
      rw [iconScan_cons_skip _ _ _ _ _ _ hic] at heq
      obtain ⟨r, hr, hfr⟩ := Except.map_eq_ok heq
      simp only [Prod.mk.injEq] at hfr
      intro nd hnd
      rw [← hfr.1] at hnd
      rcases List.mem_cons.mp hnd with rfl | hmem
      · exact Or.inl hic
      · exact ih c d f r.1 r.2.1 r.2.2.1 r.2.2.2.1 r.2.2.2.2 htrig
          (by rw [hr]) nd hmem
    | true =>
      cases nd0 with
      | text s =>
        rw [iconScan_cons_error cls _ rest c d f hic (by intro t h; cases h)] at heq
        cases heq
      | tag m =>
        rw [iconScan_cons_error cls _ rest c d f hic (by intro t h; cases h)] at heq
        cases heq
      | link a b =>
        rw [iconScan_cons_error cls _ rest c d f hic (by intro t h; cases h)] at heq
        cases heq
      | template t =>
        cases hget : tmplGet t.params "1" with
        | none =>
          rw [iconScan_icon_noparam _ _ _ _ _ _ hic hget] at heq
          obtain ⟨r, hr, hfr⟩ := Except.map_eq_ok heq
          simp only [Prod.mk.injEq] at hfr
          intro nd hnd
          rw [← hfr.1] at hnd
          rcases List.mem_cons.mp hnd with rfl | hmem
          · exact Or.inr ⟨t, rfl, hget⟩
          · exact ih c d f r.1 r.2.1 r.2.2.1 r.2.2.2.1 r.2.2.2.2 htrig
              (by rw [hr]) nd hmem
        | some p =>
          rw [iconScan_icon_step _ _ _ _ _ _ hic _ hget] at heq
          rw [Bool.or_eq_true, Bool.and_eq_true, Bool.and_eq_true] at htrig
          have hR : ((d || (strLower (paramStr p) == "dga")) && (cls == "ga")
              || ((f || (strLower (paramStr p) == "ffa")) && (cls == "fa"))) = true := by
            rcases htrig with ⟨hd, hga⟩ | ⟨hf, hfa⟩
            · simp [hd, hga]
            · simp [hf, hfa]
          rw [hR] at heq
          simp only [if_true] at heq
          obtain ⟨r, hr, hfr⟩ := Except.map_eq_ok heq
          simp only [Prod.mk.injEq] at hfr
          intro nd hnd
          rw [← hfr.1] at hnd
          have htrig2 : (((d || (strLower (paramStr p) == "dga")) && (cls == "ga"))
              || ((f || (strLower (paramStr p) == "ffa")) && (cls == "fa"))) = true := hR
          exact ih (c + 1) _ _ r.1 r.2.1 r.2.2.1 r.2.2.2.1 r.2.2.2.2 htrig2
            (by rw [hr]) nd hnd

theorem beginsWith_weaken :
    ∀ (p l ext : List Char), beginsWith p l = true → beginsWith p (l ++ ext) = true := by
  intro p
  induction p with
  | nil => intro l ext _; rfl
  | cons c cs ih =>
    intro l ext h
    cases l with
    | nil => simp [beginsWith] at h
    | cons a as =>
      simp only [beginsWith, Bool.and_eq_true] at h
      simp only [List.cons_append, beginsWith, Bool.and_eq_true]
      exact ⟨h.1, ih as ext h.2⟩

/-- A well-formed icon marker serializes with a `"{{icon"` prefix. -/
theorem iconish_of_properIcon (nd : Node) (h : properIcon nd = true) :
    iconish nd = true := by
  cases nd with
  | text s => simp [properIcon] at h
  | tag m => simp [properIcon] at h
  | link a b => simp [properIcon] at h
  | template t =>
    simp only [properIcon, Bool.and_eq_true] at h
    have hdata : (nodeStr (Node.template t)).data
        = "\x7b\x7b".data ++ t.name.data
          ++ (String.join (t.params.map (fun p => "|" ++ paramStr p))).data
          ++ "\x7d\x7d".data := by
      simp [nodeStr, tmplStr]
    rw [iconish, hdata]
    simp only [lowerChars, List.map_append]
    rw [show List.map Char.toLower "\x7b\x7b".data = "\x7b\x7b".data from by decide]
    apply containsSub_of_beginsWith
    have hb : beginsWith "icon".data
        (List.map Char.toLower t.name.data
          ++ (List.map Char.toLower
                (String.join (t.params.map (fun p => "|" ++ paramStr p))).data
              ++ List.map Char.toLower "\x7d\x7d".data)) = true :=
      beginsWith_weaken _ _ _ (by simpa [lowerChars] using h.1)
    show beginsWith ('\x7b' :: '\x7b' :: "icon".data) ('\x7b' :: '\x7b' :: _) = true
    simp only [beginsWith, Bool.and_eq_true]
    refine ⟨by decide, by decide, ?_⟩
    simpa [List.append_assoc] using hb

theorem tmplSetRev_find? (k v : String) :
    ∀ (m : List Param) (p : Param),
      m.find? (fun q => strTrim q.key == strTrim k) = some p →
      (tmplSetRev k v m).find? (fun q => strTrim q.key == strTrim k)
        = some { p with value := v } := by
  intro m
  induction m with
  | nil => intro p h; simp [List.find?] at h
  | cons q rest ih =>
    intro p h
    cases hq : (strTrim q.key == strTrim k) with
    | true =>
      simp only [List.find?, hq] at h
      rw [Option.some.injEq] at h
      subst h
      simp only [tmplSetRev, hq, if_true]
      have hq2 : (strTrim ({ q with value := v } : Param).key == strTrim k) = true := hq
      simp only [List.find?, hq2]
    | false =>
      simp only [List.find?, hq] at h
      simp only [tmplSetRev, hq, Bool.false_eq_true, if_false]
      simp only [List.find?, hq]
      exact ih p h

/-- Overwriting parameter `1` keeps it findable, with the new value. -/
theorem tmplGet_tmplSet (ps : List Param) (k v : String) (p : Param)
    (h : tmplGet ps k = some p) :
    tmplGet (tmplSet ps k v) k = some { p with value := v } := by
  unfold tmplGet at h ⊢
  rw [tmplSet, List.reverse_reverse]
  exact tmplSetRev_find? k v ps.reverse p h

/-- Overwriting a value preserves positional-ness of all parameters. -/
theorem tmplSet_all_showkey (ps : List Param) (k v : String)
    (h : ps.all (fun p => !p.showkey) = true) :
    (tmplSet ps k v).all (fun p => !p.showkey) = true := by
  rw [tmplSet, List.all_reverse]
  have hr : ps.reverse.all (fun p => !p.showkey) = true := by rwa [List.all_reverse]
  revert hr
  generalize ps.reverse = m
  intro hr
  induction m with
  | nil => rfl
  | cons q rest ih =>
    simp only [List.all_cons, Bool.and_eq_true] at hr
    simp only [tmplSetRev]
    cases hq : (strTrim q.key == strTrim k) with
    | true => simp [List.all_cons, hr.1, hr.2]
    | false => simp [List.all_cons, hr.1, ih hr.2]

theorem cls_lower_facts (cls : String) (h : assessment_order.contains cls = true) :
    strLower cls = cls ∧ (cls == "dga") = false ∧ (cls == "ffa") = false := by
  have hm : cls = "fa" ∨ cls = "fl" ∨ cls = "a" ∨ cls = "ga" ∨ cls = "bplus" ∨ cls = "b"
      ∨ cls = "c" ∨ cls = "start" ∨ cls = "stub" ∨ cls = "dab" ∨ cls = "list"
      ∨ cls = "unassessed" := by simpa [assessment_order] using h
  rcases hm with rfl|rfl|rfl|rfl|rfl|rfl|rfl|rfl|rfl|rfl|rfl|rfl <;> exact ⟨rfl, rfl, rfl⟩

theorem not_protected_facts (e : String) (h : no_replace_list.contains e = false) :
    (e == "dga") = false ∧ (e == "ffa") = false := by
  simp only [no_replace_list] at h
  constructor
  · cases he : (e == "dga") with
    | false => rfl
    | true =>
      exfalso
      have : e = "dga" := by simpa using he
      subst this
      simp at h
  · cases he : (e == "ffa") with
    | false => rfl
    | true =>
      exfalso
      have : e = "ffa" := by simpa using he
      subst this
      simp at h

/-- Replay lemma: rescanning the output of a flag-free scan (from the same
starting state) reproduces the output unchanged, provided every icon marker
on the line is well formed and the class is one of the recognized
assessment values. -/
theorem iconScan_replay (cls : String) (hcls : assessment_order.contains cls = true) :
    ∀ (l : List Node) (c : Nat) (d f : Bool) (out : List Node) (c1 : Nat)
      (d1 f1 : Bool) (a1 : Anch),
      (∀ nd ∈ l, iconish nd = true → properIcon nd = true) →
      iconScan cls l c d f = .ok (out, c1, d1, f1, a1) →
      ∃ c2 d2 f2 a2, iconScan cls out c d f = .ok (out, c2, d2, f2, a2) := by
  obtain ⟨hlow, hclsd, hclsf⟩ := cls_lower_facts cls hcls
  intro l
  induction l with
  | nil =>
    intro c d f out c1 d1 f1 a1 _ heq
    simp only [iconScan, Except.ok.injEq, Prod.mk.injEq] at heq
    rw [← heq.1]
    exact ⟨c, d, f, .noIcon, rfl⟩
  | cons nd0 rest ih =>
    intro c d f out c1 d1 f1 a1 hp heq
    cases hic : iconish nd0 with
    | false =>
      rw [iconScan_cons_skip _ _ _ _ _ _ hic] at heq
      obtain ⟨r, hr, hfr⟩ := Except.map_eq_ok heq
      simp only [Prod.mk.injEq] at hfr
      obtain ⟨c2, d2, f2, a2, h2⟩ := ih c d f r.1 r.2.1 r.2.2.1 r.2.2.2.1 r.2.2.2.2
        (fun x hx => hp x (by simp [hx])) (by rw [hr])
      refine ⟨c2, d2, f2, consKept a2, ?_⟩
      rw [← hfr.1, iconScan_cons_skip _ _ _ _ _ _ hic, h2]
      rfl
    | true =>
      cases nd0 with
      | text s =>
        rw [iconScan_cons_error cls _ rest c d f hic (by intro t h; cases h)] at heq
        cases heq
      | tag m =>
        rw [iconScan_cons_error cls _ rest c d f hic (by intro t h; cases h)] at heq
        cases heq
      | link a b =>
        rw [iconScan_cons_error cls _ rest c d f hic (by intro t h; cases h)] at heq
        cases heq
      | template t =>
        have hpt : properIcon (Node.template t) = true := hp _ (by simp) hic
        cases hget : tmplGet t.params "1" with
        | none =>
          rw [iconScan_icon_noparam _ _ _ _ _ _ hic hget] at heq
          obtain ⟨r, hr, hfr⟩ := Except.map_eq_ok heq
          simp only [Prod.mk.injEq] at hfr
          obtain ⟨c2, d2, f2, a2, h2⟩ := ih c d f r.1 r.2.1 r.2.2.1 r.2.2.2.1 r.2.2.2.2
            (fun x hx => hp x (by simp [hx])) (by rw [hr])
          refine ⟨c2, d2, f2, consIconKept a2, ?_⟩
          rw [← hfr.1, iconScan_icon_noparam _ _ _ _ _ _ hic hget, h2]
          rfl
        | some p =>
          rw [iconScan_icon_step _ _ _ _ _ _ hic _ hget] at heq
          cases hR : ((d || (strLower (paramStr p) == "dga")) && (cls == "ga")
              || ((f || (strLower (paramStr p) == "ffa")) && (cls == "fa"))) with
          | true =>
            rw [hR] at heq
            simp only [if_true] at heq
            obtain ⟨r, hr, hfr⟩ := Except.map_eq_ok heq
            simp only [Prod.mk.injEq] at hfr
            have hinert : ∀ nd ∈ out, inertNode nd := by
              intro nd hnd
              rw [← hfr.1] at hnd
              exact iconScan_swallow cls rest (c + 1) _ _ r.1 r.2.1 r.2.2.1 r.2.2.2.1
                r.2.2.2.2 hR (by rw [hr]) nd hnd
            obtain ⟨a2, h2⟩ := iconScan_inert cls out c d f hinert
            exact ⟨c, d, f, a2, h2⟩
          | false =>
            rw [hR] at heq
            simp only [Bool.false_eq_true, if_false] at heq
            obtain ⟨r, hr, hfr⟩ := Except.map_eq_ok heq
            simp only [Prod.mk.injEq] at hfr
            obtain ⟨c2, d2, f2, a2, h2⟩ := ih (c + 1) _ _ r.1 r.2.1 r.2.2.1 r.2.2.2.1
              r.2.2.2.2 (fun x hx => hp x (by simp [hx])) (by rw [hr])
            cases hM : (strLower (paramStr p) != cls
                && !(no_replace_list.contains (strLower (paramStr p)))
                && decide (c < 1)) with
            | false =>
              rw [hM] at hfr
              simp only [Bool.false_eq_true, if_false] at hfr
              refine ⟨c2, d2, f2, consIconKept a2, ?_⟩
              rw [← hfr.1, iconScan_icon_step _ _ _ _ _ _ hic _ hget, hR]
              simp only [Bool.false_eq_true, if_false]
              rw [hM]
              simp only [Bool.false_eq_true, if_false]
              rw [h2]
              rfl
            | true =>
              rw [hM] at hfr
              simp only [if_true] at hfr
              -- facts from the mutation condition
              rw [Bool.and_eq_true, Bool.and_eq_true] at hM
              obtain ⟨⟨hne, hnp⟩, hc1⟩ := hM
              have hcont : no_replace_list.contains (strLower (paramStr p)) = false := by
                simpa using hnp
              obtain ⟨hedga, heffa⟩ := not_protected_facts _ hcont
              rw [hedga, heffa] at hR hr h2
              simp only [Bool.or_false] at hR hr h2
              -- the positional parameter keeps showkey false after the overwrite
              have hpmem : p ∈ t.params := by
                have := List.mem_of_find?_eq_some hget
                exact List.mem_reverse.mp this
              simp only [properIcon, Bool.and_eq_true] at hpt
              have hshow : p.showkey = false := by
                have := List.all_eq_true.mp hpt.2 p hpmem
                simpa using this
              have hps2 : paramStr { p with value := cls } = cls := by
                simp [paramStr, hshow]
              have hget2 : tmplGet (tmplSet t.params "1" cls) "1"
                  = some { p with value := cls } := tmplGet_tmplSet t.params "1" cls p hget
              have hpt2 : properIcon (Node.template
                  (Tmpl.mk t.name (tmplSet t.params "1" cls))) = true := by
                simp only [properIcon, Bool.and_eq_true]
                exact ⟨hpt.1, tmplSet_all_showkey t.params "1" cls hpt.2⟩
              have hic2 : iconish (Node.template
                  (Tmpl.mk t.name (tmplSet t.params "1" cls))) = true :=
                iconish_of_properIcon _ hpt2
              refine ⟨c2, d2, f2, consIconKept a2, ?_⟩
              rw [← hfr.1, iconScan_icon_step _ _ _ _ _ _ hic2 _ hget2, hps2, hlow,
                hclsd, hclsf]
              simp only [Bool.or_false]
              rw [hR]
              simp only [Bool.false_eq_true, if_false]
              have hM2 : (cls != cls && !no_replace_list.contains cls && decide (c < 1))
                  = false := by simp
              rw [hM2]
              simp only [Bool.false_eq_true, if_false]
              rw [h2]
              rfl

/-- C9 (amended): icon reconciliation *is* idempotent whenever the resolved
historical flags are both false (so no sentinel insertion is required), for
any recognized class and any line whose icon-marker nodes are well-formed
icon templates; in particular a line already bearing the correct primary
icon and no sentinel markers is untouched by a run, hence byte-identical
after one and after two runs. Idempotence fails in general (see the
counterexample) when a flag forces a sentinel insertion whose marker the
next pass removes. -/
theorem C9_idempotent_when_flags_false :
    (∀ (cls : String), assessment_order.contains cls = true →
      ∀ (line out : List Node),
        (∀ nd ∈ line, iconish nd = true → properIcon nd = true) →
        treatLine cls false false line = .ok out →
        treatLine cls false false out = .ok out)
    ∧ treatLine "ga" false false
        [Node.tag "#", Node.text " ", iconT "ga", Node.text " ", Node.link "Foo" none]
      = .ok [Node.tag "#", Node.text " ", iconT "ga", Node.text " ",
             Node.link "Foo" none] := by
  constructor
  · intro cls hcls line out hp h1
    rw [treatLine_false_false] at h1 ⊢
    obtain ⟨r, hr, hfr⟩ := Except.map_eq_ok h1
    obtain ⟨c2, d2, f2, a2, h2⟩ := iconScan_replay cls hcls line 0 false false
      r.1 r.2.1 r.2.2.1 r.2.2.2.1 r.2.2.2.2 hp (by rw [hr])
    rw [← hfr, h2]
    rfl
  · rfl

/-- Witness for C9: the amended general statement applied to a line already
bearing the correct primary icon. -/
theorem C9_idempotent_when_flags_false_witness :
    treatLine "b" false false
      [Node.tag "#", Node.text " ", iconT "c", Node.text " ", Node.link "Foo" none]
      = .ok [Node.tag "#", Node.text " ", iconT "b", Node.text " ", Node.link "Foo" none]
    ∧ treatLine "b" false false
        [Node.tag "#", Node.text " ", iconT "b", Node.text " ", Node.link "Foo" none]
      = .ok [Node.tag "#", Node.text " ", iconT "b", Node.text " ",
             Node.link "Foo" none] := by
  refine ⟨by rfl, ?_⟩
  exact C9_idempotent_when_flags_false.1 "b" (by decide)
    [Node.tag "#", Node.text " ", iconT "c", Node.text " ", Node.link "Foo" none]
    [Node.tag "#", Node.text " ", iconT "b", Node.text " ", Node.link "Foo" none]
    (by decide) (by rfl)
